import Mathlib

/-!
Shallow embedding of the stats-ci crate (confidence intervals for means,
binomial proportions and quantiles) and proofs about it.

Numeric model: the crate computes over IEEE f64 (and generic Float types).
The embedding uses exact rational arithmetic (with a polymorphic
LinearOrderedField for the generic mean engine), which represents every
finite float value; NaN, the infinities and the negative zero have no
counterpart here, and the external transcendental operations (square root,
logarithm, exponential, and the normal / Student-t critical-value providers,
which the spec explicitly treats as external collaborators backed by the
statrs crate) are taken as function parameters, exactly as the Rust code
takes its transform closures.
-/

namespace StatsCI

/-- Modelled from the spec: the confidence specification (source file not
under src/): a confidence level in (0,1) plus a sidedness flag. -/
structure Confidence where
  level : ℚ
  two_sided : Bool
  deriving DecidableEq

/-- Modelled from the spec: the interval value type (source file interval.rs
is declared by lib.rs but not under src/): a pair of optional bounds; the
constructors store the pair as given. -/
structure Interval (α : Type) where
  low : Option α
  high : Option α
  deriving DecidableEq

/-- Ordered-pair constructor Interval::new (bounds stored as given). -/
def Interval.new {α : Type} (a b : α) : Interval α := ⟨some a, some b⟩

/-- Constructor Interval::new_unordered_unchecked: stores the pair as given,
explicitly waiving the ordering invariant (used by the quantile engine). -/
def Interval.new_unordered_unchecked {α : Type} (a b : α) : Interval α := ⟨some a, some b⟩

/-- Conversion Interval::from on a pair, as used by the mean engine
(named ofPair because from is a Lean keyword). -/
def Interval.ofPair {α : Type} (p : α × α) : Interval α := ⟨some p.1, some p.2⟩

/-- Modelled from the spec: the error taxonomy of error.rs (declared by
lib.rs but not under src/); constructor arities follow the uses in
src/src/mean.rs and src/src/proportion.rs. -/
inductive CIError where
  | InvalidInputData
  | TooFewSamples (n : ℕ)
  | InvalidSuccesses (successes population : ℕ)
  | InvalidConfidenceLevel (level : ℚ)
  | TooFewSuccesses (successes population : ℕ) (value : ℚ)
  | TooFewFailures (failures population : ℕ) (value : ℚ)
  | FloatConversionError (context : String)
  deriving DecidableEq

instance {ε α : Type} [DecidableEq ε] [DecidableEq α] : DecidableEq (Except ε α) := fun a b =>
  match a, b with
  | .error e, .error f =>
    if h : e = f then .isTrue (by rw [h]) else .isFalse (by intro hc; cases hc; exact h rfl)
  | .ok x, .ok y =>
    if h : x = y then .isTrue (by rw [h]) else .isFalse (by intro hc; cases hc; exact h rfl)
  | .error _, .ok _ => .isFalse (by intro hc; cases hc)
  | .ok _, .error _ => .isFalse (by intro hc; cases hc)

/-- f64::is_nan of the values representable in the exact model: always
false (NaN itself is not representable here). -/
def is_nan {U : Type} [LinearOrderedField U] (_x : U) : Bool := false

/-- f64::is_infinite of the values representable in the exact model:
always false. -/
def is_infinite {U : Type} [LinearOrderedField U] (_x : U) : Bool := false

/-- f64::is_zero. -/
def is_zero {U : Type} [LinearOrderedField U] (x : U) : Bool := decide (x = 0)

/-- f64::is_sign_positive of the values representable in the exact model
(negative zero is not representable; on every finite nonzero value and on
plus zero this agrees with the sign bit of the float). -/
def is_sign_positive {U : Type} [LinearOrderedField U] (x : U) : Bool := decide (0 ≤ x)

/-- Accumulator state of the single streaming pass of
ci_with_transforms (mean.rs lines 233 to 237). -/
structure KahanState (U : Type) where
  sum : U
  sum_c : U
  sum_sq : U
  sum_sq_c : U
  population : ℕ

/-- kahan_add (mean.rs lines 193 to 200); the two in-out references are
returned as a pair (new sum, new compensation). -/
def kahan_add {U : Type} [LinearOrderedField U] (current_sum x compensation : U) : U × U :=
  let sum := current_sum
  let c := compensation
  let y := x - c
  let t := sum + y
  (t, (t - sum) - y)

/-- The streaming for-loop of ci_with_transforms (mean.rs lines 239 to
247): validity check with short-circuit failure, then compensated
accumulation of the transformed value and its square. -/
def mean_fold {T U : Type} [LinearOrderedField U] (f_valid : T → Bool) (f_transform : T → U) :
    List T → KahanState U → Except CIError (KahanState U)
  | [], st => .ok st
  | x :: xs, st =>
    if !f_valid x then
      .error .InvalidInputData
    else
      let x_prime := f_transform x
      let s := kahan_add st.sum x_prime st.sum_c
      let sq := kahan_add st.sum_sq (x_prime * x_prime) st.sum_sq_c
      mean_fold f_valid f_transform xs ⟨s.1, s.2, sq.1, sq.2, st.population + 1⟩

/-- ci_with_transforms (mean.rs lines 220 to 275). The external
Student-t critical-value provider and the square root are parameters
(t_value, sqrtU); the U::from conversions of the t-value and of the
population are total in this model (every rational is representable), so
the FloatConversionError paths are unreachable here. -/
def ci_with_transforms {T U : Type} [LinearOrderedField U]
    (t_value : Confidence → ℕ → U) (sqrtU : U → U)
    (confidence : Confidence) (data : List T)
    (f_valid : T → Bool) (f_transform : T → U) (f_inverse : U → U → T × T) :
    Except CIError (Interval T) :=
  match mean_fold f_valid f_transform data ⟨0, 0, 0, 0, 0⟩ with
  | .error e => .error e
  | .ok st =>
    if st.population < 2 then
      .error (.TooFewSamples st.population)
    else
      let tv : U := t_value confidence (st.population - 1)
      let n : U := (st.population : U)
      let mean := st.sum / n
      let variance := (st.sum_sq - st.sum * st.sum / n) / (n - 1)
      let std_dev := sqrtU variance
      .ok (Interval.ofPair (f_inverse (mean - tv * std_dev / sqrtU n)
        (mean + tv * std_dev / sqrtU n)))

/-- Arithmetic::ci (mean.rs lines 125 to 138): validity rejects NaN and
infinities, transform and inverse are the identity. -/
def Arithmetic.ci {U : Type} [LinearOrderedField U]
    (t_value : Confidence → ℕ → U) (sqrtU : U → U)
    (confidence : Confidence) (data : List U) : Except CIError (Interval U) :=
  ci_with_transforms t_value sqrtU confidence data
    (fun x => !is_nan x && !is_infinite x)
    (fun x => x)
    (fun x y => (x, y))

/-- Geometric::ci (mean.rs lines 145 to 158): note that the validity
closure is the disjunction is_sign_positive x || not (is_zero x), exactly
as in the source. The logarithm and the exponential of the Float type are
parameters (lnU, expU). -/
def Geometric.ci {U : Type} [LinearOrderedField U]
    (t_value : Confidence → ℕ → U) (sqrtU lnU expU : U → U)
    (confidence : Confidence) (data : List U) : Except CIError (Interval U) :=
  ci_with_transforms t_value sqrtU confidence data
    (fun x => is_sign_positive x || !is_zero x)
    (fun x => lnU x)
    (fun x y => (expU x, expU y))

/-- The inverse-bound transform closure of Harmonic::ci (mean.rs line
175): reciprocal of both bounds with the bounds mirrored. -/
def harmonic_f_inverse {U : Type} [LinearOrderedField U] (x y : U) : U × U := (y⁻¹, x⁻¹)

/-- Harmonic::ci (mean.rs lines 165 to 178): same validity closure as
Geometric::ci, reciprocal transform, mirrored reciprocal inverse. -/
def Harmonic.ci {U : Type} [LinearOrderedField U]
    (t_value : Confidence → ℕ → U) (sqrtU : U → U)
    (confidence : Confidence) (data : List U) : Except CIError (Interval U) :=
  ci_with_transforms t_value sqrtU confidence data
    (fun x => is_sign_positive x || !is_zero x)
    (fun x => x⁻¹)
    harmonic_f_inverse

/-- Result of a Rust computation that may panic (the quantile engine
contains an assert and an unchecked usize subtraction; the subtraction is
modelled with the checked semantics that the FIXME comment at quantile.rs
line 90 itself describes: it panics when the minuend is 0). -/
inductive RResult (α : Type) where
  | panicked
  | ok (val : α)
  deriving DecidableEq

/-- quantile::ci_sorted_unchecked (quantile.rs lines 73 to 97). The
external normal critical-value provider and the f64 square root are
parameters (z_value, sqrtQ). The cast of the (exact) ceiling to usize
saturates below at 0, as the Rust as-cast does; the subsequent
subtraction of 1 panics when the cast produced 0 (the FIXME at line 90). -/
def Quantile.ci_sorted_unchecked {T : Type} (z_value : Confidence → ℚ) (sqrtQ : ℚ → ℚ)
    (confidence : Confidence) (sorted : List T) (quantile : ℚ) :
    RResult (Option (Interval T)) :=
  if ¬(quantile > 0 ∧ quantile < 1) then
    .panicked
  else
    let len := sorted.length
    if len < 3 then
      .ok none
    else
      let z := z_value confidence
      let q := quantile
      let n : ℚ := (len : ℚ)
      let mid_span := z * sqrtQ (n * q * (1 - q))
      let lo_cast : ℕ := (⌈n * q - mid_span⌉).toNat
      if lo_cast = 0 then
        .panicked
      else
        let lo := lo_cast - 1
        let hi_cast : ℕ := (⌈n * q + mid_span⌉).toNat
        if hi_cast = 0 then
          .panicked
        else
          let hi := hi_cast - 1
          match sorted.get? lo, sorted.get? hi with
          | some a, some b => .ok (some (Interval.new_unordered_unchecked a b))
          | _, _ => .ok none

/-- quantile::ci (quantile.rs lines 140 to 148): sorts a copy of the data
ascending (the source sorts by the partial order, which on the totally
ordered element types considered here is the ascending order), then
delegates to ci_sorted_unchecked. -/
def Quantile.ci {T : Type} [LinearOrder T] (z_value : Confidence → ℚ) (sqrtQ : ℚ → ℚ)
    (confidence : Confidence) (data : List T) (quantile : ℚ) :
    RResult (Option (Interval T)) :=
  Quantile.ci_sorted_unchecked z_value sqrtQ confidence
    (data.insertionSort (fun a b => a ≤ b)) quantile

/-- proportion::ci_wilson (proportion.rs lines 187 to 219). The in-src
wrapper z_value_two_sided (lib.rs lines 24 to 26) around the external
statrs inverse normal CDF, and the f64 square root, are parameters. -/
def Proportion.ci_wilson (z_value_two_sided : ℚ → ℚ) (sqrtQ : ℚ → ℚ)
    (confidence : ℚ) (population successes : ℕ) : Except CIError (Interval ℚ) :=
  if successes > population then
    .error (.InvalidSuccesses successes population)
  else if confidence ≤ 0 ∨ confidence ≥ 1 then
    .error (.InvalidConfidenceLevel confidence)
  else
    let n : ℚ := (population : ℚ)
    let n_s : ℚ := (successes : ℚ)
    let n_f : ℚ := n - n_s
    if successes < 2 then
      .error (.TooFewSuccesses successes population n_s)
    else if population - successes < 2 then
      .error (.TooFewFailures (population - successes) population n_f)
    else
      let z := z_value_two_sided confidence
      let z_2 := z * z
      let mean := (n_s + z_2 / 2) / (n + z_2)
      let span := (z / (n + z_2)) * sqrtQ (n_s * n_f / n + z_2 / 4)
      .ok (Interval.new (mean - span) (mean + span))

/-- proportion::ci_z_normal (proportion.rs lines 221 to 254): same input
validation as ci_wilson, but with the rule-of-thumb sufficiency gates
n times p at least 10 and n times q at least 10. -/
def Proportion.ci_z_normal (z_value_two_sided : ℚ → ℚ) (sqrtQ : ℚ → ℚ)
    (confidence : ℚ) (population successes : ℕ) : Except CIError (Interval ℚ) :=
  if successes > population then
    .error (.InvalidSuccesses successes population)
  else if confidence ≤ 0 ∨ confidence ≥ 1 then
    .error (.InvalidConfidenceLevel confidence)
  else
    let n : ℚ := (population : ℚ)
    let x : ℚ := (successes : ℚ)
    let p := x / n
    let q := 1 - p
    if n * p < 10 then
      .error (.TooFewSuccesses successes population (n * p))
    else if n * q < 10 then
      .error (.TooFewFailures (population - successes) population (n * q))
    else
      let std_dev := sqrtQ (p * q / n)
      let z := z_value_two_sided confidence
      .ok (Interval.new (p - z * std_dev) (p + z * std_dev))

/-- True exactly when the result is one of the two statistical
sufficiency-gate errors (TooFewSuccesses or TooFewFailures). -/
def tooFewGateTripped {α : Type} : Except CIError α → Bool
  | .error (.TooFewSuccesses _ _ _) => true
  | .error (.TooFewFailures _ _ _) => true
  | _ => false

/-! Helper lemmas about the mean engine. -/

/-- In exact arithmetic the Kahan compensation term vanishes and the
running sum advances by exactly x minus the incoming compensation. -/
lemma kahan_add_exact {U : Type} [LinearOrderedField U] (s x c : U) :
    kahan_add s x c = (s + (x - c), 0) := by
  unfold kahan_add
  dsimp only
  congr 1
  ring

/-- On a list whose elements all pass the validity predicate, the
streaming pass succeeds and (in exact arithmetic) accumulates the plain
sums of the transformed values and of their squares, with both
compensation terms zero, and counts the length. -/
lemma mean_fold_all_valid {T U : Type} [LinearOrderedField U]
    (f_valid : T → Bool) (f : T → U) (xs : List T)
    (h : ∀ x ∈ xs, f_valid x = true) (s ss : U) (pop : ℕ) :
    mean_fold f_valid f xs ⟨s, 0, ss, 0, pop⟩ =
      .ok ⟨s + (xs.map f).sum, 0, ss + (xs.map fun x => f x * f x).sum, 0, pop + xs.length⟩ := by
  induction xs generalizing s ss pop with
  | nil => simp [mean_fold]
  | cons x xs ih =>
    have hx : f_valid x = true := h x (List.mem_cons_self x xs)
    rw [mean_fold]
    simp only [hx, Bool.not_true, Bool.false_eq_true, if_false, kahan_add_exact]
    rw [ih (fun y hy => h y (List.mem_cons_of_mem x hy))]
    simp only [List.map_cons, List.sum_cons, List.length_cons]
    simp only [Except.ok.injEq, KahanState.mk.injEq]
    refine ⟨by ring, trivial, by ring, trivial, by omega⟩

/-- The transform-space margin of the mean engine: the t critical value
times the standard deviation estimate over the square root of n, all as
computed by ci_with_transforms from the exact accumulators. -/
def mean_margin {U : Type} [LinearOrderedField U]
    (tv : Confidence → ℕ → U) (sq : U → U) (conf : Confidence)
    (su ssq : U) (len : ℕ) : U :=
  tv conf (len - 1) * sq ((ssq - su * su / (len : U)) / ((len : U) - 1)) / sq (len : U)

/-- Characterization of ci_with_transforms on an all-valid sample: fewer
than two observations give TooFewSamples, otherwise the interval is the
inverse transform applied to mean minus margin and mean plus margin. -/
lemma ci_with_transforms_all_valid {T U : Type} [LinearOrderedField U]
    (tv : Confidence → ℕ → U) (sq : U → U) (conf : Confidence) (l : List T)
    (fv : T → Bool) (ft : T → U) (fi : U → U → T × T)
    (h : ∀ x ∈ l, fv x = true) :
    ci_with_transforms tv sq conf l fv ft fi =
      if l.length < 2 then .error (.TooFewSamples l.length)
      else
        .ok (Interval.ofPair (fi
          ((l.map ft).sum / (l.length : U) -
            mean_margin tv sq conf (l.map ft).sum (l.map fun x => ft x * ft x).sum l.length)
          ((l.map ft).sum / (l.length : U) +
            mean_margin tv sq conf (l.map ft).sum (l.map fun x => ft x * ft x).sum l.length))) := by
  rw [ci_with_transforms, mean_fold_all_valid fv ft l h 0 0 0]
  simp only [zero_add, mean_margin]

/-- On an all-valid sample, the generic mean engine reports TooFewSamples
with the sample size exactly when the size is below 2, and never reports
any other size. -/
lemma ci_with_transforms_too_few_iff {T U : Type} [LinearOrderedField U]
    (tv : Confidence → ℕ → U) (sq : U → U) (conf : Confidence) (l : List T)
    (fv : T → Bool) (ft : T → U) (fi : U → U → T × T)
    (h : ∀ x ∈ l, fv x = true) :
    ((ci_with_transforms tv sq conf l fv ft fi = .error (.TooFewSamples l.length)) ↔
      l.length < 2) ∧
    (∀ m, ci_with_transforms tv sq conf l fv ft fi = .error (.TooFewSamples m) →
      m = l.length) := by
  rw [ci_with_transforms_all_valid tv sq conf l fv ft fi h]
  by_cases hl : l.length < 2
  · simp only [if_pos hl]
    constructor
    · simp [hl]
    · intro m hm
      simp only [Except.error.injEq, CIError.TooFewSamples.injEq] at hm
      omega
  · simp only [if_neg hl]
    constructor
    · simp [hl]
    · intro m hm
      cases hm

/-- C6: for every confidence specification and every sample whose elements
all pass the kind's validity predicate, each of the three mean CI
operations (arithmetic, geometric, harmonic) fails with TooFewSamples n
exactly when the number n of observations is below 2, and every
TooFewSamples error it reports carries exactly the sample size (so an
empty sample yields TooFewSamples 0 and a singleton TooFewSamples 1). -/
theorem c6_mean_ci_too_few_samples_iff :
    ∀ (tv : Confidence → ℕ → ℚ) (sq ln ex : ℚ → ℚ) (conf : Confidence) (l : List ℚ),
      ((∀ x ∈ l, (!is_nan x && !is_infinite x) = true) →
        ((Arithmetic.ci tv sq conf l = .error (.TooFewSamples l.length)) ↔ l.length < 2) ∧
        (∀ m, Arithmetic.ci tv sq conf l = .error (.TooFewSamples m) → m = l.length)) ∧
      ((∀ x ∈ l, (is_sign_positive x || !is_zero x) = true) →
        ((Geometric.ci tv sq ln ex conf l = .error (.TooFewSamples l.length)) ↔ l.length < 2) ∧
        (∀ m, Geometric.ci tv sq ln ex conf l = .error (.TooFewSamples m) → m = l.length)) ∧
      ((∀ x ∈ l, (is_sign_positive x || !is_zero x) = true) →
        ((Harmonic.ci tv sq conf l = .error (.TooFewSamples l.length)) ↔ l.length < 2) ∧
        (∀ m, Harmonic.ci tv sq conf l = .error (.TooFewSamples m) → m = l.length)) := by
  intro tv sq ln ex conf l
  exact ⟨fun h => ci_with_transforms_too_few_iff tv sq conf l _ _ _ h,
    fun h => ci_with_transforms_too_few_iff tv sq conf l _ _ _ h,
    fun h => ci_with_transforms_too_few_iff tv sq conf l _ _ _ h⟩

/-- Witness for C6: a singleton valid sample makes Arithmetic::ci fail
with TooFewSamples 1. -/
theorem c6_mean_ci_too_few_samples_iff_witness :
    (Arithmetic.ci (fun _ _ => (1 : ℚ)) id ⟨95/100, true⟩ [5] =
      .error (.TooFewSamples 1)) ↔ 1 < 2 :=
  ((c6_mean_ci_too_few_samples_iff (fun _ _ => 1) id id id ⟨95/100, true⟩ [5]).1
    (by decide)).1

/-- C8: the arithmetic mean CI is symmetric about the sample mean: it
succeeds on a valid sample of size at least 2 and its bounds sum to
exactly twice the sample mean (the bounds are the mean minus and plus the
same margin and the inverse transform is the identity pair); exact here
because the model's arithmetic is exact, within floating tolerance in
f64. -/
theorem c8_arithmetic_ci_symmetric :
    ∀ (tv : Confidence → ℕ → ℚ) (sq : ℚ → ℚ) (conf : Confidence) (l : List ℚ),
      (∀ x ∈ l, (!is_nan x && !is_infinite x) = true) → 2 ≤ l.length →
      ∃ lo hi : ℚ, Arithmetic.ci tv sq conf l = .ok (Interval.new lo hi) ∧
        lo + hi = 2 * (l.sum / (l.length : ℚ)) := by
  intro tv sq conf l h hl
  have key := ci_with_transforms_all_valid tv sq conf l
    (fun x => !is_nan x && !is_infinite x) (fun x => x) (fun x y => (x, y)) h
  rw [if_neg (by omega)] at key
  refine ⟨_, _, key, ?_⟩
  have hm : l.map (fun x => x) = l := List.map_id' l
  rw [hm]
  ring

/-- Witness for C8 at the sample with elements 1 and 3. -/
theorem c8_arithmetic_ci_symmetric_witness :
    ∃ lo hi : ℚ, Arithmetic.ci (fun _ _ => (1 : ℚ)) id ⟨95/100, true⟩ [1, 3] =
      .ok (Interval.new lo hi) ∧
      lo + hi = 2 * (([1, 3] : List ℚ).sum / (([1, 3] : List ℚ).length : ℚ)) :=
  c8_arithmetic_ci_symmetric (fun _ _ => 1) id ⟨95/100, true⟩ [1, 3] (by decide) (by decide)

/-- C1 (evaluation at the failing input): the validity closure of
Geometric::ci and Harmonic::ci, is_sign_positive x || not (is_zero x),
accepts the strictly negative element -1 and the element 0, so a sample
containing -1 is not rejected: both computations run to completion
instead of failing with InvalidInputData as the claim requires. -/
theorem c1_nonpositive_elements_not_rejected :
    ((is_sign_positive (-1 : ℚ) || !is_zero (-1 : ℚ)) = true) ∧
    ((is_sign_positive (0 : ℚ) || !is_zero (0 : ℚ)) = true) ∧
    (∀ (tv : Confidence → ℕ → ℚ) (sq ln ex : ℚ → ℚ),
      ∃ itv, Geometric.ci tv sq ln ex ⟨95/100, true⟩ [-1, 2, 3] = .ok itv) ∧
    (∀ (tv : Confidence → ℕ → ℚ) (sq : ℚ → ℚ),
      ∃ itv, Harmonic.ci tv sq ⟨95/100, true⟩ [-1, 2, 3] = .ok itv) := by
  refine ⟨by decide, by decide, ?_, ?_⟩
  · intro tv sq ln ex
    unfold Geometric.ci
    rw [ci_with_transforms_all_valid _ _ _ _ _ _ _ (by decide)]
    exact ⟨_, if_neg (by decide)⟩
  · intro tv sq
    unfold Harmonic.ci
    rw [ci_with_transforms_all_valid _ _ _ _ _ _ _ (by decide)]
    exact ⟨_, if_neg (by decide)⟩

/-- The mean engine applies the inverse-bound transform only to the final
transform-space bounds: if running it with the identity inverse yields
the bounds (lo, hi), then running it with any inverse fi yields exactly
the interval built from fi lo hi. -/
lemma ci_with_transforms_ok_inverse {U : Type} [LinearOrderedField U]
    (tv : Confidence → ℕ → U) (sq : U → U) (conf : Confidence) (l : List U)
    (fv : U → Bool) (ft : U → U) (fi : U → U → U × U) (lo hi : U)
    (h : ci_with_transforms tv sq conf l fv ft (fun x y => (x, y)) = .ok (Interval.new lo hi)) :
    ci_with_transforms tv sq conf l fv ft fi = .ok (Interval.ofPair (fi lo hi)) := by
  rw [ci_with_transforms] at h ⊢
  cases hm : mean_fold fv ft l ⟨0, 0, 0, 0, 0⟩ with
  | error e =>
    rw [hm] at h
    exact Except.noConfusion h
  | ok st =>
    rw [hm] at h
    dsimp only at h ⊢
    by_cases hp : st.population < 2
    · rw [if_pos hp] at h; cases h
    · rw [if_neg hp] at h ⊢
      simp only [Interval.ofPair, Interval.new, Except.ok.injEq, Interval.mk.injEq,
        Option.some.injEq] at h ⊢
      obtain ⟨h1, h2⟩ := h
      rw [h1, h2]
      exact ⟨rfl, rfl⟩

/-- Modelled from the spec: the inverse-bound transform the spec's
harmonic-mean row describes, exponentiate-then-reciprocal with bounds
swapped, producing the interval (1 / exp hi, 1 / exp lo). -/
noncomputable def harmonic_f_inverse_spec (x y : ℝ) : ℝ × ℝ :=
  ((Real.exp y)⁻¹, (Real.exp x)⁻¹)

/-- C3 (counterexample): at the transform-space bounds (1, 2) the
harmonic inverse-bound transform of the code gives (2⁻¹, 1⁻¹), which is
not the exponentiate-then-reciprocal pair ((exp 2)⁻¹, (exp 1)⁻¹) the
claim describes. -/
theorem c3_counterexample : harmonic_f_inverse (1 : ℝ) 2 ≠ harmonic_f_inverse_spec 1 2 := by
  intro h
  have h2 := congrArg Prod.snd h
  simp only [harmonic_f_inverse, harmonic_f_inverse_spec] at h2
  have hexp : (1 : ℝ) = Real.exp 1 := inv_injective h2
  have hle : (1 : ℝ) + 1 ≤ Real.exp 1 := Real.add_one_le_exp 1
  linarith

/-- C3 (amended): the harmonic inverse-bound transform is the plain
reciprocal with the bounds swapped: whenever the transform-space bounds
are (lo, hi), Harmonic::ci returns the interval (hi⁻¹, lo⁻¹), so the
transform-space low bound becomes the result's high bound and the
transform-space high bound becomes the result's low bound; there is no
exponentiation. -/
theorem c3_harmonic_inverse_swaps_reciprocal :
    ∀ (tv : Confidence → ℕ → ℚ) (sq : ℚ → ℚ) (conf : Confidence) (l : List ℚ) (lo hi : ℚ),
      ci_with_transforms tv sq conf l (fun x => is_sign_positive x || !is_zero x)
        (fun x => x⁻¹) (fun x y => (x, y)) = .ok (Interval.new lo hi) →
      Harmonic.ci tv sq conf l = .ok (Interval.new hi⁻¹ lo⁻¹) := by
  intro tv sq conf l lo hi h
  unfold Harmonic.ci
  exact ci_with_transforms_ok_inverse tv sq conf l _ _ harmonic_f_inverse lo hi h

/-- Witness for the amended C3: on the sample with elements 1 and 1/2
(reciprocal transforms 1 and 2) with unit critical value and identity
square root, the transform-space bounds are (5/4, 7/4) and Harmonic::ci
returns ((7/4)⁻¹, (5/4)⁻¹). -/
theorem c3_harmonic_inverse_swaps_reciprocal_witness :
    Harmonic.ci (fun _ _ => (1 : ℚ)) id ⟨95/100, true⟩ [1, 1/2] =
      .ok (Interval.new ((7/4 : ℚ))⁻¹ ((5/4 : ℚ))⁻¹) :=
  c3_harmonic_inverse_swaps_reciprocal (fun _ _ => 1) id ⟨95/100, true⟩ [1, 1/2]
    (5/4) (7/4) (by
      rw [ci_with_transforms_all_valid _ _ _ _ _ _ _
        (by intro x hx; fin_cases hx <;> norm_num [is_sign_positive, is_zero])]
      norm_num [mean_margin, Interval.ofPair, Interval.new])

/-- C2 (code behavior at the underflow boundary): for a sorted sample of
length at least 3 and a quantile strictly in (0,1), whenever the computed
lower rank underflows (n times q is at most the mid-span, so the ceiling
is at most zero and the usize cast saturates to 0), ci_sorted_unchecked
panics on the unsigned subtraction of 1 instead of returning None. -/
theorem c2_lower_rank_underflow_panics :
    ∀ (zv : Confidence → ℚ) (sq : ℚ → ℚ) (conf : Confidence) (sorted : List ℚ) (q : ℚ),
      0 < q → q < 1 → 3 ≤ sorted.length →
      (sorted.length : ℚ) * q ≤ zv conf * sq ((sorted.length : ℚ) * q * (1 - q)) →
      Quantile.ci_sorted_unchecked zv sq conf sorted q = .panicked := by
  intro zv sq conf sorted q hq0 hq1 hlen hle
  rw [Quantile.ci_sorted_unchecked]
  rw [if_neg (not_not_intro ⟨hq0, hq1⟩)]
  dsimp only
  rw [if_neg (by omega)]
  have hceil :
      (⌈(sorted.length : ℚ) * q - zv conf * sq ((sorted.length : ℚ) * q * (1 - q))⌉).toNat = 0 := by
    rw [Int.toNat_eq_zero]
    rw [Int.ceil_le]
    push_cast
    linarith
  rw [if_pos hceil]

/-- Witness for C2 at the failing input of the claim: three sorted
elements, median, two-sided confidence 0.95; the external providers are
instantiated with the true f64 values z = 1.96 and sqrt(0.75) = 0.866
(to rational rounding), for which n times q = 1.5 is below the mid-span
1.697, so the code panics. -/
theorem c2_lower_rank_underflow_panics_witness :
    Quantile.ci_sorted_unchecked (fun _ => (49/25 : ℚ)) (fun _ => (433/500 : ℚ))
      ⟨95/100, true⟩ ([1, 2, 3] : List ℚ) (1/2) = .panicked :=
  c2_lower_rank_underflow_panics (fun _ => 49/25) (fun _ => 433/500) ⟨95/100, true⟩
    [1, 2, 3] (1/2) (by norm_num) (by norm_num) (by norm_num) (by norm_num)

/-- C7: the quantile CI is invariant to input order: on any permutation of
a fixed data set, quantile::ci (which sorts a copy ascending and then
delegates) returns exactly what ci_sorted_unchecked returns on the
ascending-sorted data set. -/
theorem c7_quantile_ci_permutation_invariant :
    ∀ (T : Type) [_inst : LinearOrder T] (zv : Confidence → ℚ) (sq : ℚ → ℚ)
      (conf : Confidence) (l l2 : List T) (q : ℚ),
      l2.Perm l →
      Quantile.ci zv sq conf l2 q =
        Quantile.ci_sorted_unchecked zv sq conf (l.insertionSort (fun a b => a ≤ b)) q := by
  intro T _inst zv sq conf l l2 q hperm
  rw [Quantile.ci]
  congr 1
  exact List.eq_of_perm_of_sorted
    ((List.perm_insertionSort _ l2).trans (hperm.trans (List.perm_insertionSort _ l).symm))
    (List.sorted_insertionSort _ l2) (List.sorted_insertionSort _ l)

/-- Witness for C7: a shuffle of the data set 1..5 goes through
quantile::ci to the same outcome as the sorted computation. -/
theorem c7_quantile_ci_permutation_invariant_witness :
    Quantile.ci (fun _ => (49/25 : ℚ)) (fun _ => (1118/1000 : ℚ)) ⟨95/100, true⟩
      ([3, 1, 5, 2, 4] : List ℕ) (1/2) =
    Quantile.ci_sorted_unchecked (fun _ => (49/25 : ℚ)) (fun _ => (1118/1000 : ℚ))
      ⟨95/100, true⟩ (([1, 2, 3, 4, 5] : List ℕ).insertionSort (fun a b => a ≤ b)) (1/2) :=
  c7_quantile_ci_permutation_invariant ℕ (fun _ => 49/25) (fun _ => 1118/1000)
    ⟨95/100, true⟩ [1, 2, 3, 4, 5] [3, 1, 5, 2, 4] (1/2) (by decide)

/-- C10: when successes exceeds population, both proportion engines
return InvalidSuccesses carrying (successes, population), for every
confidence value, including confidences outside (0,1): the
successes-versus-population check precedes the confidence check. -/
theorem c10_invalid_successes_precedence :
    ∀ (zf sq zf2 sq2 : ℚ → ℚ) (conf : ℚ) (population successes : ℕ),
      population < successes →
      Proportion.ci_wilson zf sq conf population successes =
        .error (.InvalidSuccesses successes population) ∧
      Proportion.ci_z_normal zf2 sq2 conf population successes =
        .error (.InvalidSuccesses successes population) := by
  intro zf sq zf2 sq2 conf population successes h
  constructor
  · rw [Proportion.ci_wilson, if_pos (by omega)]
  · rw [Proportion.ci_z_normal, if_pos (by omega)]

/-- Witness for C10 at a confidence (5) far outside (0,1): the
InvalidSuccesses error still takes precedence over
InvalidConfidenceLevel. -/
theorem c10_invalid_successes_precedence_witness :
    Proportion.ci_wilson (fun _ => 1) id 5 1 2 = .error (.InvalidSuccesses 2 1) ∧
    Proportion.ci_z_normal (fun _ => 1) id 5 1 2 = .error (.InvalidSuccesses 2 1) :=
  c10_invalid_successes_precedence (fun _ => 1) id (fun _ => 1) id 5 1 2 (by omega)

/-- C4: under the validation and sufficiency preconditions, ci_wilson
returns Ok of exactly the interval center minus and plus the half-width,
with center equal to (successes + z squared over 2) over (population + z
squared) and half-width z over (population + z squared) times the square
root of (successes times failures over population + z squared over 4),
where z is the two-sided normal critical value at the confidence; the
bounds are returned as computed, with no clamping to [0,1]. -/
theorem c4_wilson_formula :
    ∀ (zf sq : ℚ → ℚ) (conf : ℚ) (population successes : ℕ),
      0 < conf → conf < 1 → successes ≤ population →
      2 ≤ successes → 2 ≤ population - successes →
      Proportion.ci_wilson zf sq conf population successes =
        .ok (Interval.new
          (((successes : ℚ) + zf conf * zf conf / 2) / ((population : ℚ) + zf conf * zf conf) -
            zf conf / ((population : ℚ) + zf conf * zf conf) *
              sq ((successes : ℚ) * ((population : ℚ) - (successes : ℚ)) / (population : ℚ) +
                zf conf * zf conf / 4))
          (((successes : ℚ) + zf conf * zf conf / 2) / ((population : ℚ) + zf conf * zf conf) +
            zf conf / ((population : ℚ) + zf conf * zf conf) *
              sq ((successes : ℚ) * ((population : ℚ) - (successes : ℚ)) / (population : ℚ) +
                zf conf * zf conf / 4))) := by
  intro zf sq conf population successes h0 h1 hsp hs hf
  rw [Proportion.ci_wilson, if_neg (by omega), if_neg (by push_neg; exact ⟨h0, h1⟩)]
  dsimp only
  rw [if_neg (by omega), if_neg (by omega)]

/-- Witness for C4 with population 10, successes 5, confidence 1/2, and
unit critical value. -/
theorem c4_wilson_formula_witness :
    Proportion.ci_wilson (fun _ => 1) id (1/2) 10 5 =
      .ok (Interval.new
        ((((5 : ℕ) : ℚ) + 1 * 1 / 2) / (((10 : ℕ) : ℚ) + 1 * 1) -
          1 / (((10 : ℕ) : ℚ) + 1 * 1) *
            id (((5 : ℕ) : ℚ) * (((10 : ℕ) : ℚ) - ((5 : ℕ) : ℚ)) / ((10 : ℕ) : ℚ) + 1 * 1 / 4))
        ((((5 : ℕ) : ℚ) + 1 * 1 / 2) / (((10 : ℕ) : ℚ) + 1 * 1) +
          1 / (((10 : ℕ) : ℚ) + 1 * 1) *
            id (((5 : ℕ) : ℚ) * (((10 : ℕ) : ℚ) - ((5 : ℕ) : ℚ)) / ((10 : ℕ) : ℚ) + 1 * 1 / 4))) :=
  c4_wilson_formula (fun _ => 1) id (1/2) 10 5 (by norm_num) (by norm_num)
    (by omega) (by omega) (by omega)

/-- C5: under the shared input validation (confidence in (0,1), successes
at most population, and a nonempty population so that the proportion p is
well defined), ci_wilson fails with TooFewSuccesses exactly when
successes < 2 and otherwise with TooFewFailures exactly when population
minus successes < 2, while ci_z_normal instead gates on population times
p being below 10 and population times q being below 10 (p = successes
over population, q = 1 - p); and the z_normal thresholds are stricter:
whenever ci_z_normal passes its gates, ci_wilson passes its own. -/
theorem c5_sufficiency_gates :
    ∀ (zf sq zf2 sq2 : ℚ → ℚ) (conf : ℚ) (population successes : ℕ),
      0 < conf → conf < 1 → successes ≤ population → 1 ≤ population →
      ((Proportion.ci_wilson zf sq conf population successes =
          .error (.TooFewSuccesses successes population (successes : ℚ))) ↔
        successes < 2) ∧
      ((Proportion.ci_wilson zf sq conf population successes =
          .error (.TooFewFailures (population - successes) population
            ((population : ℚ) - (successes : ℚ)))) ↔
        (2 ≤ successes ∧ population - successes < 2)) ∧
      ((Proportion.ci_z_normal zf2 sq2 conf population successes =
          .error (.TooFewSuccesses successes population
            ((population : ℚ) * ((successes : ℚ) / (population : ℚ))))) ↔
        (population : ℚ) * ((successes : ℚ) / (population : ℚ)) < 10) ∧
      ((Proportion.ci_z_normal zf2 sq2 conf population successes =
          .error (.TooFewFailures (population - successes) population
            ((population : ℚ) * (1 - (successes : ℚ) / (population : ℚ))))) ↔
        (¬(population : ℚ) * ((successes : ℚ) / (population : ℚ)) < 10 ∧
          (population : ℚ) * (1 - (successes : ℚ) / (population : ℚ)) < 10)) ∧
      (tooFewGateTripped (Proportion.ci_z_normal zf2 sq2 conf population successes) = false →
        tooFewGateTripped (Proportion.ci_wilson zf sq conf population successes) = false) := by
  intro zf sq zf2 sq2 conf population successes h0 h1 hsp hpop
  have hgt : ¬(successes > population) := by omega
  have hconf : ¬(conf ≤ 0 ∨ conf ≥ 1) := by push_neg; exact ⟨h0, h1⟩
  have hnz : (population : ℚ) ≠ 0 := by
    exact_mod_cast Nat.pos_iff_ne_zero.mp (by omega)
  have hp_eq : (population : ℚ) * ((successes : ℚ) / (population : ℚ)) = (successes : ℚ) := by
    field_simp
  have hq_eq : (population : ℚ) * (1 - (successes : ℚ) / (population : ℚ)) =
      ((population - successes : ℕ) : ℚ) := by
    push_cast [Nat.cast_sub hsp]
    field_simp
  rw [Proportion.ci_wilson, if_neg hgt, if_neg hconf]
  rw [Proportion.ci_z_normal, if_neg hgt, if_neg hconf]
  dsimp only
  refine ⟨?_, ?_, ?_, ?_, ?_⟩
  · by_cases hs : successes < 2
    · simp [hs]
    · rw [if_neg hs]
      by_cases hfail : population - successes < 2 <;> simp [hfail, hs]
  · by_cases hs : successes < 2
    · rw [if_pos hs]
      constructor
      · intro hc
        cases hc
      · intro hc
        omega
    · rw [if_neg hs]
      by_cases hfail : population - successes < 2
      · simp only [if_pos hfail, Except.error.injEq]
        constructor
        · intro _
          exact ⟨by omega, hfail⟩
        · intro _
          trivial
      · simp only [if_neg hfail]
        constructor
        · intro hc
          cases hc
        · intro hc
          omega
  · by_cases hnp : (population : ℚ) * ((successes : ℚ) / (population : ℚ)) < 10
    · simp [hnp]
    · rw [if_neg hnp]
      by_cases hnq : (population : ℚ) * (1 - (successes : ℚ) / (population : ℚ)) < 10 <;>
        simp [hnq, hnp]
  · by_cases hnp : (population : ℚ) * ((successes : ℚ) / (population : ℚ)) < 10
    · rw [if_pos hnp]
      constructor
      · intro hc
        cases hc
      · intro hc
        exact absurd hnp hc.1
    · rw [if_neg hnp]
      by_cases hnq : (population : ℚ) * (1 - (successes : ℚ) / (population : ℚ)) < 10
      · simp only [if_pos hnq, Except.error.injEq]
        constructor
        · intro _
          exact ⟨hnp, hnq⟩
        · intro _
          trivial
      · simp only [if_neg hnq]
        constructor
        · intro hc
          cases hc
        · intro hc
          exact absurd hc.2 hnq
  · intro hpass
    by_cases hnp : (population : ℚ) * ((successes : ℚ) / (population : ℚ)) < 10
    · rw [if_pos hnp] at hpass
      cases hpass
    · rw [if_neg hnp] at hpass
      by_cases hnq : (population : ℚ) * (1 - (successes : ℚ) / (population : ℚ)) < 10
      · rw [if_pos hnq] at hpass
        cases hpass
      · have hs10 : (10 : ℚ) ≤ (successes : ℚ) := by
          rw [hp_eq] at hnp
          linarith
        have hf10 : (10 : ℚ) ≤ ((population - successes : ℕ) : ℚ) := by
          rw [hq_eq] at hnq
          linarith
        have hs' : 10 ≤ successes := by exact_mod_cast hs10
        have hf' : 10 ≤ population - successes := by exact_mod_cast hf10
        rw [if_neg (by omega : ¬successes < 2), if_neg (by omega : ¬population - successes < 2)]
        rfl

/-- Witness for C5: at confidence 0.95 with population 50 and successes
20, the z_normal TooFewSuccesses gate is equivalent to 50 times (20/50)
being below 10 — which it is not. -/
theorem c5_sufficiency_gates_witness :
    (Proportion.ci_z_normal (fun _ => 1) id (95/100) 50 20 =
      .error (.TooFewSuccesses 20 50 (((50 : ℕ) : ℚ) * (((20 : ℕ) : ℚ) / ((50 : ℕ) : ℚ))))) ↔
    ((50 : ℕ) : ℚ) * (((20 : ℕ) : ℚ) / ((50 : ℕ) : ℚ)) < 10 :=
  ((c5_sufficiency_gates (fun _ => 1) id (fun _ => 1) id (95/100) 50 20
    (by norm_num) (by norm_num) (by omega) (by omega)).2.2.1)

end StatsCI
